import Mathlib

/-!
Verification of the postMessage-RPC core (`src/postMessageSocket.ts`,
`src/initPlugin.ts`, `src/providePlugin.ts`) via a shallow embedding.

Conventions of the embedding:
* JavaScript runtime values are modelled by `JSValue` (structured-clone /
  JSON-like values; numbers are `Int`, `undefined` is folded into `vNull`).
* The two `Map`s owned by a socket (`customEventListeners`,
  `answerHandlers`) are modelled as functions from keys; `Map.set`,
  `Map.delete` and `Map.clear` become pointwise updates.  The resolver
  stored in `answerHandlers` always does the same thing (delete the entry
  and resolve the pending promise with the payload), so only the presence
  of the key is state; the act of resolving is recorded as the
  `Effect.settle` observation.
* Calls to `window.postMessage`, to the injected `errorCallback` and
  promise resolutions are observable side effects, collected in a
  `List Effect`.
* `Math.random().toString(36).slice(2, 9)` and `Date.now().toString(36)`
  are environment inputs, passed in as an `Env` record.
* Handlers (`callback` of a channel) may return a value or throw;
  `await` of an async handler is the same as a direct return here, so a
  handler is a function `JSValue → Except String JSValue` (`.error` is a
  thrown exception carrying its message).
-/

/-- A structurally-cloneable JavaScript value.  `vNull` also stands for
`undefined`; numbers are integers (no claim touches float behaviour). -/
inductive JSValue where
  | vNull
  | vBool (b : Bool)
  | vNum (n : Int)
  | vStr (s : String)
  | vList (elems : List JSValue)
  | vObj (fields : List (String × JSValue))

/-- JavaScript truthiness of a `JSValue` (used by `if (waitForResponse)`
and by `msgId ? msgId : this.getNextMsgId()`). -/
def jsTruthy : JSValue → Bool
  | .vNull => false
  | .vBool b => b
  | .vNum n => n != 0
  | .vStr s => s != ""
  | .vList _ => true
  | .vObj _ => true

/-- `Object.hasOwnProperty.call(message, key)` on an object literal. -/
def hasOwn (fields : List (String × JSValue)) (key : String) : Bool :=
  fields.any (fun f => f.1 == key)

/-- Property read `message[key]` on an object (only ever used after the
presence check, so the default for an absent key is immaterial). -/
def getField (fields : List (String × JSValue)) (key : String) : JSValue :=
  ((fields.lookup key).getD JSValue.vNull)

/-- A registered message-channel listener: the user callback together
with the `once` option (`customEventListeners` map values).  The
`messageChannel` closures stored alongside in the source are recovered
as the top-level functions `channelSend` / `channelSendAndWait`. -/
structure Listener where
  callback : JSValue → Except String JSValue
  once : Bool

/-- Error reports funnelled through the socket's `errorCallback`,
kept structured (the source renders them to strings). -/
inductive ErrorReport where
  | socketIsTerminated
  | originMismatch (expected got : String)
  | wrongMessagePayload
  | noChannel (name : JSValue)
  | callbackError (name : String) (message : String)

/-- A wire envelope as posted by `sendPostMessage`:
`{ id, name, payload, waitForResponse }`.  The `name` is always the
string the channel closure captured; the `id` is whatever value was
passed as `msgId` (a reply reuses the inbound id verbatim). -/
structure Envelope where
  id : JSValue
  name : String
  payload : JSValue
  waitForResponse : Bool

/-- The raw `event.data` a posted envelope arrives as. -/
def Envelope.toJS (e : Envelope) : JSValue :=
  .vObj [("id", e.id), ("name", .vStr e.name),
         ("payload", e.payload), ("waitForResponse", .vBool e.waitForResponse)]

/-- Observable side effects of socket operations.
`invoked name payload registered` records that a channel handler ran;
the `registered` flag captures whether the channel was still present in
the registry at the moment the handler was invoked (it is `false` for a
`once` channel, which `onMessage` removes first). -/
inductive Effect where
  | reportError (e : ErrorReport)
  | post (e : Envelope)
  | settle (id : String) (payload : JSValue)
  | invoked (name : String) (payload : JSValue) (registered : Bool)

/-- State of one `PostMessageSocket` instance.  `targetOrigin` is the
origin captured at construction; `listenerAttached` tracks the raw
`message` subscription added in the constructor and removed by
`terminate`. -/
structure SocketState where
  messageCounter : Nat
  isTerminated : Bool
  targetOrigin : String
  customEventListeners : String → Option Listener
  answerHandlers : String → Bool
  listenerAttached : Bool

/-- Environment inputs consumed by one id generation:
`Math.random().toString(36).slice(2, 9)` and `Date.now().toString(36)`. -/
structure Env where
  rand : String
  time : String

/-- The string built by `getNextMsgId`:
`` `${counter}-${random}-${timestamp}` ``. -/
def mkMsgId (counter : Nat) (rand time : String) : String :=
  Nat.repr counter ++ "-" ++ rand ++ "-" ++ time

/-- `getNextMsgId()`: returns the fresh id and the state with
`messageCounter` post-incremented. -/
def getNextMsgId (st : SocketState) (env : Env) : SocketState × String :=
  ({ st with messageCounter := st.messageCounter + 1 },
   mkMsgId st.messageCounter env.rand env.time)

/-- A raw `message` event as seen by `onMessage`: whether
`event.source === targetWindow`, the `event.origin`, and `event.data`. -/
structure MessageEvent where
  sourceIsTarget : Bool
  origin : String
  data : JSValue

/-- `validateMessage`: the structural check on inbound data.  It tests
that the value is an object and that the four envelope properties are
present; it does not inspect their types. -/
def validateMessage : JSValue → Bool
  | .vObj fs =>
      hasOwn fs "name" && hasOwn fs "payload" && hasOwn fs "id" &&
        hasOwn fs "waitForResponse"
  | _ => false

/-- The destructured `{ id, waitForResponse, name, payload }` of a
validated message; each field is still an arbitrary runtime value. -/
structure RawMsg where
  id : JSValue
  name : JSValue
  payload : JSValue
  waitForResponse : JSValue

/-- `parseData`: Rust-style result — the destructured message on
success, a `WrongMessagePayload` report when validation fails. -/
def parseData (d : JSValue) : Except ErrorReport RawMsg :=
  match d with
  | .vObj fs =>
      if validateMessage (.vObj fs) then
        .ok ⟨getField fs "id", getField fs "name",
             getField fs "payload", getField fs "waitForResponse"⟩
      else .error .wrongMessagePayload
  | _ => .error .wrongMessagePayload

/-- Pointwise update of the listener registry (`Map.set` / `Map.delete`
according to whether `v` is `some` or `none`). -/
def setListener (f : String → Option Listener) (k : String) (v : Option Listener) :
    String → Option Listener :=
  fun x => if x == k then v else f x

/-- `answerHandlers.set(id, resolver)` — only key presence is state. -/
def addPending (p : String → Bool) (k : String) : String → Bool :=
  fun x => if x == k then true else p x

/-- `answerHandlers.delete(id)`. -/
def removePending (p : String → Bool) (k : String) : String → Bool :=
  fun x => if x == k then false else p x

/-- `removeListener(eventName)`: deletes the channel registration. -/
def removeListener (st : SocketState) (eventName : String) : SocketState :=
  { st with customEventListeners := setListener st.customEventListeners eventName none }

/-- `sendPostMessage(opts)` of a channel closure for channel `name`:
uses the provided `msgId` when truthy, otherwise generates a fresh id
(advancing the counter), and posts the envelope to the target window. -/
def sendPostMessage (st : SocketState) (name : String) (payload : JSValue)
    (waitForResponse : Bool) (msgId : Option JSValue) (env : Env) :
    SocketState × Envelope :=
  match msgId with
  | some m =>
      if jsTruthy m then (st, ⟨m, name, payload, waitForResponse⟩)
      else
        let r := getNextMsgId st env
        (r.1, ⟨.vStr r.2, name, payload, waitForResponse⟩)
  | none =>
      let r := getNextMsgId st env
      (r.1, ⟨.vStr r.2, name, payload, waitForResponse⟩)

/-- The `send` closure of a channel: one-way envelope
(`waitForResponse: false`), immediate success marker.  There is no
terminated-check in this closure. -/
def channelSend (st : SocketState) (name : String) (payload : JSValue)
    (msgId : Option String) (env : Env) : SocketState × List Effect :=
  let r := sendPostMessage st name payload false (msgId.map .vStr) env
  (r.1, [.post r.2])

/-- The `sendAndWait` closure of a channel: posts with
`waitForResponse: true` under a fresh id, then (`handleAnswerMessage`)
registers that id in `answerHandlers`.  Returns the generated id.
There is no terminated-check in this closure either. -/
def channelSendAndWait (st : SocketState) (name : String) (payload : JSValue)
    (env : Env) : SocketState × String × List Effect :=
  let r := sendPostMessage st name payload true none env
  let id := mkMsgId st.messageCounter env.rand env.time
  ({ r.1 with answerHandlers := addPending r.1.answerHandlers id }, id, [.post r.2])

/-- `createMessageChannel(name, callback, options)`: `none` with a
`SocketIsTerminated` report on a terminated socket, otherwise registers
the listener (last writer wins) and returns the channel (modelled as
`some ()`, its closures being `channelSend`/`channelSendAndWait`). -/
def createMessageChannel (st : SocketState) (name : String) (l : Listener) :
    SocketState × Option Unit × List Effect :=
  if st.isTerminated then (st, none, [.reportError .socketIsTerminated])
  else ({ st with customEventListeners := setListener st.customEventListeners name (some l) },
        some (), [])

/-- `terminate()`: sets the latch, detaches the raw listener, clears
both maps.  The counter is not reset. -/
def terminate (st : SocketState) : SocketState :=
  { st with
    isTerminated := true
    listenerAttached := false
    customEventListeners := fun _ => none
    answerHandlers := fun _ => false }

/-- `this.answerHandlers.has(id)` on the destructured (arbitrary) id:
only a string id can match a registered handler key. -/
def isAnswerId (st : SocketState) : JSValue → Bool
  | .vStr s => st.answerHandlers s
  | _ => false

/-- The reply branch of `onMessage`: the stored resolver deletes the
entry and resolves the waiting promise with the payload. -/
def handleAnswer (st : SocketState) (m : RawMsg) : SocketState × List Effect :=
  match m.id with
  | .vStr s => ({ st with answerHandlers := removePending st.answerHandlers s },
                [.settle s m.payload])
  | _ => (st, [])

/-- The new-inbound-call branch of `onMessage`: registry lookup,
once-removal before invocation, handler execution, and the reply
transmission (reusing the inbound id via `msgId`) when the envelope
asked for a response.  A throwing handler is reported and, if a
response was expected, answered with an error-shaped payload. -/
def dispatchCall (st : SocketState) (m : RawMsg) (env : Env) :
    SocketState × List Effect :=
  match m.name with
  | .vStr nm =>
      match st.customEventListeners nm with
      | none => (st, [.reportError (.noChannel (.vStr nm))])
      | some l =>
          let st1 := if l.once then removeListener st nm else st
          let registered := (st1.customEventListeners nm).isSome
          match l.callback m.payload with
          | .ok v =>
              if jsTruthy m.waitForResponse then
                let r := sendPostMessage st1 nm v false (some m.id) env
                (r.1, [.invoked nm m.payload registered, .post r.2])
              else (st1, [.invoked nm m.payload registered])
          | .error msg =>
              if jsTruthy m.waitForResponse then
                let r := sendPostMessage st1 nm (.vObj [("error", .vStr msg)])
                  false (some m.id) env
                (r.1, [.invoked nm m.payload registered,
                       .reportError (.callbackError nm msg), .post r.2])
              else (st1, [.invoked nm m.payload registered,
                          .reportError (.callbackError nm msg)])
  | other => (st, [.reportError (.noChannel other)])

/-- `onMessage(event)`: terminated-check, source check (silent drop),
origin check, structural validation, then reply-correlation or channel
dispatch.  (`event.stopImmediatePropagation()` has no state effect and
is not modelled.) -/
def onMessage (st : SocketState) (ev : MessageEvent) (env : Env) :
    SocketState × List Effect :=
  if st.isTerminated then (st, [.reportError .socketIsTerminated])
  else if !ev.sourceIsTarget then (st, [])
  else if ev.origin != st.targetOrigin then
    (st, [.reportError (.originMismatch st.targetOrigin ev.origin)])
  else
    match parseData ev.data with
    | .error e => (st, [.reportError e])
    | .ok m => if isAnswerId st m.id then handleAnswer st m else dispatchCall st m env

/-- Delivery of a posted envelope back as a raw event. -/
def mkEvent (sourceIsTarget : Bool) (origin : String) (e : Envelope) : MessageEvent :=
  ⟨sourceIsTarget, origin, e.toJS⟩

/-- Inbound deliveries processed one after another. -/
def runEvents : SocketState → List (MessageEvent × Env) → SocketState × List Effect
  | st, [] => (st, [])
  | st, (ev, env) :: rest =>
      let r := onMessage st ev env
      let rr := runEvents r.1 rest
      (rr.1, r.2 ++ rr.2)

/-- Any operation a user or the transport can perform on one socket. -/
inductive SocketOp where
  | deliver (ev : MessageEvent) (env : Env)
  | chanSend (name : String) (payload : JSValue) (msgId : Option String) (env : Env)
  | chanSendAndWait (name : String) (payload : JSValue) (env : Env)
  | createChannel (name : String) (l : Listener)
  | removeChan (name : String)
  | terminateOp

/-- One step of the socket under an arbitrary operation. -/
def stepOp (st : SocketState) : SocketOp → SocketState × List Effect
  | .deliver ev env => onMessage st ev env
  | .chanSend name payload msgId env => channelSend st name payload msgId env
  | .chanSendAndWait name payload env =>
      let r := channelSendAndWait st name payload env
      (r.1, r.2.2)
  | .createChannel name l =>
      let r := createMessageChannel st name l
      (r.1, r.2.2)
  | .removeChan name => (removeListener st name, [])
  | .terminateOp => (terminate st, [])

/-- A trace of operations. -/
def runOps : SocketState → List SocketOp → SocketState × List Effect
  | st, [] => (st, [])
  | st, op :: rest =>
      let r := stepOp st op
      let rr := runOps r.1 rest
      (rr.1, r.2 ++ rr.2)

/-- Repeated `sendAndWait` calls on one socket (the K concurrent calls
of the correlation property); returns the final state and the generated
ids in order. -/
def runSendAndWaits (st : SocketState) (name : String) (payload : JSValue) :
    List Env → SocketState × List String
  | [] => (st, [])
  | env :: rest =>
      let r := channelSendAndWait st name payload env
      let rr := runSendAndWaits r.1 name payload rest
      (rr.1, r.2.1 :: rr.2)

/-- Decimal value of a digit string (left inverse of `Nat.repr`,
used to read the counter segment back out of a message id). -/
def evalDigits (l : List Char) : Nat :=
  l.foldl (fun a c => 10 * a + (c.toNat - 48)) 0

/-- The counter segment of a message id: the digits before the first
dash, read back as a number. -/
def parseCounter (s : String) : Nat :=
  evalDigits (s.toList.takeWhile (fun c => c != '-'))

/-!
### `initPlugin` (caller-side handshake), `src/initPlugin.ts`

The handshake session state: the socket, whether the `setTimeout` timer
is still armed, whether the container element is still in the DOM
(`container?.parentNode`), and the outcome of the returned promise
(`none` while unsettled; a promise settles at most once, later
`resolve`/`reject` calls are ignored).  The resolved value is the
method-name list the plugin answered with (the `methods` record holds
one proxy per name). -/
structure InitState where
  socket : SocketState
  timerActive : Bool
  containerAttached : Bool
  outcome : Option (Except String (List JSValue))

/-- Observable DOM effect of the handshake layer. -/
inductive InitEffect where
  | removeContainer

/-- `reject(new Error(msg))` — settles the promise only if still pending. -/
def rejectInit (msg : String) (s : InitState) : InitState :=
  if s.outcome.isNone then { s with outcome := some (.error msg) } else s

/-- `resolve({methods, terminate})` — settles only if still pending. -/
def resolveInit (methodNames : List JSValue) (s : InitState) : InitState :=
  if s.outcome.isNone then { s with outcome := some (.ok methodNames) } else s

/-- The `cleanup(error?)` helper of `initPlugin`: clears the timer,
terminates the socket, and removes the container only when an error was
passed and the container is still attached. -/
def initCleanup (withError : Bool) (s : InitState) : InitState × List InitEffect :=
  let s1 := { s with timerActive := false, socket := terminate s.socket }
  if withError && s1.containerAttached then
    ({ s1 with containerAttached := false }, [.removeContainer])
  else (s1, [])

/-- The rejection message of the handshake timer, naming the configured
duration. -/
def timeoutMessage (timeout : Nat) : String :=
  "Plugin initialization failed with timeout! You can try to increase the timeout value in the plugin settings. Current value is "
    ++ Nat.repr timeout ++ "ms."

/-- The body of the `setTimeout` callback in `initPlugin`:
`cleanup()` (no error argument), then an explicit
`if (container?.parentNode) container.remove()`, then the rejection. -/
def initOnTimeout (timeout : Nat) (s : InitState) : InitState × List InitEffect :=
  let r := initCleanup false s
  let r2 :=
    if r.1.containerAttached then
      ({ r.1 with containerAttached := false }, [InitEffect.removeContainer])
    else (r.1, [])
  (rejectInit (timeoutMessage timeout) r2.1, r.2 ++ r2.2)

/-- The `TypeError` thrown by `answer.forEach(...)` when `answer` is not
an array (nor a string, which the explicit check catches first). -/
def forEachError (v : JSValue) : String :=
  match v with
  | .vNull => "Cannot read properties of null (reading 'forEach')"
  | _ => "answer.forEach is not a function"

/-- The continuation of `onDomReady` once the init reply `answer`
arrives: a string reply hits the explicit `typeof answer === "string"`
check (`cleanup()` without an error, so the container stays); an array
reply builds the method proxies, clears the timer and resolves; any
other value throws in `answer.forEach`, and the `catch` block runs
`cleanup(error)` (which does remove the container) and rejects with
that error. -/
def handleInitAnswer (answer : JSValue) (s : InitState) : InitState × List InitEffect :=
  match answer with
  | .vStr _ =>
      let r := initCleanup false s
      (rejectInit "Plugin did not return method list" r.1, r.2)
  | .vList methodNames =>
      (resolveInit methodNames { s with timerActive := false }, [])
  | other =>
      let r := initCleanup true s
      (rejectInit (forEachError other) r.1, r.2)

/-!
### `providePlugin` (callee side), `src/providePlugin.ts`
-/

/-- The requested-callback set after `providePlugin`'s mandatory-hook
injection: `if (!hooks.includes("error")) hooks.push("error")`. -/
def effectiveHooks (hooks : List String) : List String :=
  if hooks.contains "error" then hooks else hooks ++ ["error"]

/-- The dummy plugin-side callback registered for each parent hook
(`() => {}` — returns `undefined`, never used). -/
def dummyListener : Listener := ⟨fun _ => .ok .vNull, false⟩

/-- `onInit`'s `hooks.reduce(...)` over the hook names the parent sent:
opens a channel per name and collects the names whose channel creation
succeeded (the keys of the resolved `hooks` proxy map). -/
def buildParentCallbacks (st : SocketState) (names : List String) :
    SocketState × List String :=
  names.foldl
    (fun acc nm =>
      let r := createMessageChannel acc.1 nm dummyListener
      (r.1, match r.2.1 with
            | some _ => acc.2 ++ [nm]
            | none => acc.2))
    (st, [])

/-- The state of a freshly constructed `PostMessageSocket` whose target
window has origin `origin`: counter 0, not terminated, empty maps, raw
listener attached. -/
def mkSocket (origin : String) : SocketState :=
  { messageCounter := 0
    isTerminated := false
    targetOrigin := origin
    customEventListeners := fun _ => none
    answerHandlers := fun _ => false
    listenerAttached := true }

/-- How many times a handler of channel `n` was invoked in a trace. -/
def invocationCount (n : String) (effs : List Effect) : Nat :=
  effs.countP (fun e =>
    match e with
    | .invoked m _ _ => m == n
    | _ => false)

/-- A handler that returns `v` (registered with `once := false`). -/
def okListener (v : JSValue) : Listener := ⟨fun _ => .ok v, false⟩

/-- A handler that returns `v`, registered with `once := true`. -/
def onceListener (v : JSValue) : Listener := ⟨fun _ => .ok v, true⟩

/-- Sample environment inputs for concrete evaluations. -/
def sampleEnv : Env := ⟨"r1a2b3c", "t9z8"⟩

/-- Whether a reply payload is a method-name list (a JS array). -/
def isMethodList : JSValue → Bool
  | .vList _ => true
  | _ => false

/-- Whether a runtime value is a string (`typeof x === "string"`). -/
def isStrValue : JSValue → Bool
  | .vStr _ => true
  | _ => false

/-- A socket with one ordinary channel "a" whose handler returns "res". -/
def chanSocket : SocketState :=
  (createMessageChannel (mkSocket "o") "a" (okListener (.vStr "res"))).1

/-- A socket with a `once` channel "evt". -/
def onceSocket : SocketState :=
  (createMessageChannel (mkSocket "o") "evt" (onceListener (.vStr "v"))).1

/-- A socket with one outstanding `sendAndWait` on channel "q"
(pending id `0-r1a2b3c-t9z8`). -/
def pendSocket : SocketState :=
  (channelSendAndWait (mkSocket "o") "q" .vNull sampleEnv).1

/-- A handshake session that is still pending, with its container
attached and its timer armed. -/
def initSample : InitState := ⟨mkSocket "o", true, true, none⟩

/-!
## Helper lemmas

### Message ids

`getNextMsgId` renders the counter in decimal before the first dash and
the random/timestamp segments cannot un-delimit it, so distinct
counters give distinct ids.  `parseCounter` reads the counter back.
-/

theorem digitChar_toNat (m : Nat) (h : m < 10) : (Nat.digitChar m).toNat - 48 = m := by
  interval_cases m <;> decide

theorem digitChar_ne_dash (m : Nat) (h : m < 10) : Nat.digitChar m ≠ '-' := by
  interval_cases m <;> decide

theorem toDigitsCore_append (fuel : Nat) :
    ∀ (n : Nat) (ds : List Char),
      Nat.toDigitsCore 10 fuel n ds = Nat.toDigitsCore 10 fuel n [] ++ ds := by
  induction fuel with
  | zero => intro n ds; simp [Nat.toDigitsCore]
  | succ f ih =>
    intro n ds
    simp only [Nat.toDigitsCore]
    by_cases h : n / 10 = 0
    · simp [h]
    · simp only [h, if_false]
      rw [ih (n / 10) [Nat.digitChar (n % 10)], ih (n / 10) (Nat.digitChar (n % 10) :: ds)]
      simp

theorem dash_not_in_toDigitsCore (fuel : Nat) :
    ∀ (n : Nat) (ds : List Char), '-' ∉ ds → '-' ∉ Nat.toDigitsCore 10 fuel n ds := by
  induction fuel with
  | zero => intro n ds h; simpa [Nat.toDigitsCore] using h
  | succ f ih =>
    intro n ds h
    simp only [Nat.toDigitsCore]
    by_cases h10 : n / 10 = 0
    · simp only [h10, if_true]
      intro hmem
      rcases List.mem_cons.mp hmem with h1 | h2
      · exact digitChar_ne_dash (n % 10) (Nat.mod_lt _ (by omega)) h1.symm
      · exact h h2
    · simp only [h10, if_false]
      apply ih
      intro hmem
      rcases List.mem_cons.mp hmem with h1 | h2
      · exact digitChar_ne_dash (n % 10) (Nat.mod_lt _ (by omega)) h1.symm
      · exact h h2

theorem evalDigits_toDigitsCore (fuel : Nat) :
    ∀ n : Nat, n < fuel → evalDigits (Nat.toDigitsCore 10 fuel n []) = n := by
  induction fuel with
  | zero => intro n h; omega
  | succ f ih =>
    intro n h
    simp only [Nat.toDigitsCore]
    by_cases h10 : n / 10 = 0
    · have hn : n < 10 := (Nat.div_eq_zero_iff (by omega)).mp h10
      simp only [h10, if_true]
      simp [evalDigits, digitChar_toNat (n % 10) (Nat.mod_lt _ (by omega))]
      omega
    · simp only [h10, if_false]
      rw [toDigitsCore_append]
      have hlt : n / 10 < f := by
        have h1 : n / 10 < n := Nat.div_lt_self (by omega) (by omega)
        omega
      have := ih (n / 10) hlt
      simp only [evalDigits] at *
      rw [List.foldl_append]
      simp [this, digitChar_toNat (n % 10) (Nat.mod_lt _ (by omega))]
      omega

theorem repr_toList (n : Nat) : (Nat.repr n).toList = Nat.toDigitsCore 10 (n + 1) n [] := rfl

theorem evalDigits_repr (n : Nat) : evalDigits (Nat.repr n).toList = n := by
  rw [repr_toList]; exact evalDigits_toDigitsCore (n + 1) n (Nat.lt_succ_self n)

theorem dash_not_in_repr (n : Nat) : '-' ∉ (Nat.repr n).toList := by
  rw [repr_toList]
  exact dash_not_in_toDigitsCore (n + 1) n [] (by simp)

theorem takeWhile_append_dash (xs ys : List Char) (h : '-' ∉ xs) :
    (xs ++ '-' :: ys).takeWhile (fun c => c != '-') = xs := by
  induction xs with
  | nil => simp [List.takeWhile]
  | cons x xs ih =>
    have hx : x ≠ '-' := fun he => h (he ▸ List.mem_cons_self x xs)
    have hxs : '-' ∉ xs := fun hm => h (List.mem_cons_of_mem x hm)
    have hxb : (x != '-') = true := by simp [bne_iff_ne, hx]
    simp only [List.cons_append, List.takeWhile, hxb]
    simp [ih hxs]

theorem mkMsgId_toList (c : Nat) (r t : String) :
    (mkMsgId c r t).toList = (Nat.repr c).toList ++ '-' :: (r.toList ++ '-' :: t.toList) := by
  simp [mkMsgId, String.toList]

theorem parseCounter_mkMsgId (c : Nat) (r t : String) : parseCounter (mkMsgId c r t) = c := by
  unfold parseCounter
  rw [mkMsgId_toList, takeWhile_append_dash _ _ (dash_not_in_repr c), evalDigits_repr]

theorem mkMsgId_inj_counter (c1 c2 : Nat) (r1 t1 r2 t2 : String)
    (h : mkMsgId c1 r1 t1 = mkMsgId c2 r2 t2) : c1 = c2 := by
  have := congrArg parseCounter h
  rwa [parseCounter_mkMsgId, parseCounter_mkMsgId] at this

theorem mkMsgId_ne_empty (c : Nat) (r t : String) : mkMsgId c r t ≠ "" := by
  intro h
  have := congrArg String.toList h
  rw [mkMsgId_toList] at this
  simp [String.toList] at this

/-!
### Socket dispatch characterizations
-/

theorem sendPostMessage_some_truthy (st : SocketState) (n : String) (p : JSValue)
    (w : Bool) (v : JSValue) (env : Env) (h : jsTruthy v = true) :
    sendPostMessage st n p w (some v) env = (st, ⟨v, n, p, w⟩) := by
  simp [sendPostMessage, h]

theorem sendPostMessage_state (st : SocketState) (n : String) (p : JSValue)
    (w : Bool) (mid : Option JSValue) (env : Env) :
    (sendPostMessage st n p w mid env).1 =
      if (match mid with | some v => jsTruthy v | none => false) then st
      else { st with messageCounter := st.messageCounter + 1 } := by
  rcases mid with _ | v
  · simp [sendPostMessage, getNextMsgId]
  · by_cases h : jsTruthy v <;> simp [sendPostMessage, getNextMsgId, h]

theorem channelSendAndWait_state (st : SocketState) (n : String) (p : JSValue) (env : Env) :
    (channelSendAndWait st n p env).1 =
      { st with
        messageCounter := st.messageCounter + 1
        answerHandlers := addPending st.answerHandlers (mkMsgId st.messageCounter env.rand env.time) } := by
  simp [channelSendAndWait, sendPostMessage, getNextMsgId]

theorem channelSendAndWait_id (st : SocketState) (n : String) (p : JSValue) (env : Env) :
    (channelSendAndWait st n p env).2.1 = mkMsgId st.messageCounter env.rand env.time := rfl

theorem channelSendAndWait_effects (st : SocketState) (n : String) (p : JSValue) (env : Env) :
    (channelSendAndWait st n p env).2.2 =
      [.post ⟨.vStr (mkMsgId st.messageCounter env.rand env.time), n, p, true⟩] := by
  simp [channelSendAndWait, sendPostMessage, getNextMsgId]

theorem onMessage_accepted (st : SocketState) (ev : MessageEvent) (env : Env)
    (hterm : st.isTerminated = false) (hsrc : ev.sourceIsTarget = true)
    (horig : ev.origin = st.targetOrigin) :
    onMessage st ev env =
      match parseData ev.data with
      | .error e => (st, [.reportError e])
      | .ok m => if isAnswerId st m.id then handleAnswer st m else dispatchCall st m env := by
  simp [onMessage, hterm, hsrc, horig]

theorem handleAnswer_eq (st : SocketState) (m : RawMsg) (s : String) (h : m.id = .vStr s) :
    handleAnswer st m =
      ({ st with answerHandlers := removePending st.answerHandlers s },
       [.settle s m.payload]) := by
  rcases m with ⟨mid, mn, mp, mw⟩
  cases h
  rfl

theorem parseData_toJS (e : Envelope) :
    parseData e.toJS = .ok ⟨e.id, .vStr e.name, e.payload, .vBool e.waitForResponse⟩ := by
  rfl

theorem dispatchCall_noChannel (st : SocketState) (m : RawMsg) (env : Env) (nm : String)
    (hnm : m.name = .vStr nm) (hlk : st.customEventListeners nm = none) :
    dispatchCall st m env = (st, [.reportError (.noChannel (.vStr nm))]) := by
  rcases m with ⟨mid, mn, mp, mw⟩
  cases hnm
  simp [dispatchCall, hlk]

theorem dispatchCall_found_state (st : SocketState) (m : RawMsg) (env : Env)
    (nm : String) (l : Listener) (hnm : m.name = .vStr nm)
    (hlk : st.customEventListeners nm = some l) :
    (dispatchCall st m env).1 =
      { (if l.once then removeListener st nm else st) with
        messageCounter :=
          if jsTruthy m.waitForResponse && !(jsTruthy m.id) then st.messageCounter + 1
          else st.messageCounter } := by
  rcases m with ⟨mid, mn, mp, mw⟩
  cases hnm
  rcases hcb : l.callback mp with v | msg <;>
    by_cases hw : jsTruthy mw <;>
      by_cases hid : jsTruthy mid <;>
        by_cases ho : l.once <;>
          simp [dispatchCall, hlk, hcb, hw, hid, ho, sendPostMessage_state,
            removeListener, getNextMsgId]

theorem dispatchCall_ok_truthy_effects (st : SocketState) (m : RawMsg) (env : Env)
    (nm : String) (l : Listener) (v : JSValue) (hnm : m.name = .vStr nm)
    (hlk : st.customEventListeners nm = some l)
    (hcb : l.callback m.payload = .ok v)
    (hw : jsTruthy m.waitForResponse = true) (hid : jsTruthy m.id = true) :
    (dispatchCall st m env).2 =
      [.invoked nm m.payload (!l.once), .post ⟨m.id, nm, v, false⟩] := by
  rcases m with ⟨mid, mn, mp, mw⟩
  cases hnm
  by_cases ho : l.once <;>
    simp [dispatchCall, hlk, hcb, hw, hid, ho, sendPostMessage_some_truthy,
      removeListener, setListener]

theorem dispatchCall_nonStr (st : SocketState) (m : RawMsg) (env : Env)
    (h : ∀ s : String, m.name ≠ .vStr s) :
    dispatchCall st m env = (st, [.reportError (.noChannel m.name)]) := by
  rcases m with ⟨mid, mn, mp, mw⟩
  cases mn with
  | vStr s => exact absurd rfl (h s)
  | vNull => rfl
  | vBool b => rfl
  | vNum n => rfl
  | vList xs => rfl
  | vObj fs => rfl

theorem dispatchCall_found_effects_shape (st : SocketState) (m : RawMsg) (env : Env)
    (nm : String) (l : Listener) (hnm : m.name = .vStr nm)
    (hlk : st.customEventListeners nm = some l) :
    ∃ rest : List Effect,
      (dispatchCall st m env).2 = .invoked nm m.payload (!l.once) :: rest ∧
        ∀ k p b, Effect.invoked k p b ∉ rest := by
  rcases m with ⟨mid, mn, mp, mw⟩
  cases hnm
  rcases hcb : l.callback mp with v | msg <;>
    by_cases hw : jsTruthy mw <;>
      by_cases ho : l.once <;>
        simp [dispatchCall, hlk, hcb, hw, ho, removeListener, setListener,
          sendPostMessage]

theorem invocationCount_nil (n : String) : invocationCount n [] = 0 := rfl

theorem invocationCount_no_invoked (n : String) (effs : List Effect)
    (h : ∀ k p b, Effect.invoked k p b ∉ effs) : invocationCount n effs = 0 := by
  unfold invocationCount
  rw [List.countP_eq_zero]
  intro e he
  cases e with
  | invoked k p b => exact absurd he (h k p b)
  | reportError r => simp
  | post x => simp
  | settle i pl => simp

theorem invocationCount_cons_invoked (n k : String) (p : JSValue) (b : Bool)
    (effs : List Effect) :
    invocationCount n (Effect.invoked k p b :: effs) =
      (if k = n then 1 else 0) + invocationCount n effs := by
  unfold invocationCount
  rw [List.countP_cons]
  by_cases h : k = n <;> simp [h] <;> omega

theorem dispatchCall_invariants (st : SocketState) (m : RawMsg) (env : Env) :
    (dispatchCall st m env).1.isTerminated = st.isTerminated ∧
    (dispatchCall st m env).1.targetOrigin = st.targetOrigin ∧
    (dispatchCall st m env).1.listenerAttached = st.listenerAttached ∧
    (dispatchCall st m env).1.answerHandlers = st.answerHandlers := by
  rcases m with ⟨mid, mn, mp, mw⟩
  cases mn with
  | vStr nm =>
      rcases hlk : st.customEventListeners nm with _ | l
      · rw [dispatchCall_noChannel st ⟨mid, .vStr nm, mp, mw⟩ env nm rfl hlk]
        exact ⟨rfl, rfl, rfl, rfl⟩
      · rw [dispatchCall_found_state st ⟨mid, .vStr nm, mp, mw⟩ env nm l rfl hlk]
        by_cases ho : l.once <;> simp [ho, removeListener]
  | vNull => exact ⟨rfl, rfl, rfl, rfl⟩
  | vBool b => exact ⟨rfl, rfl, rfl, rfl⟩
  | vNum n => exact ⟨rfl, rfl, rfl, rfl⟩
  | vList xs => exact ⟨rfl, rfl, rfl, rfl⟩
  | vObj fs => exact ⟨rfl, rfl, rfl, rfl⟩

theorem dispatchCall_listeners (st : SocketState) (m : RawMsg) (env : Env) (k : String) :
    (dispatchCall st m env).1.customEventListeners k =
      (match m.name, st.customEventListeners k with
       | .vStr nm, some l => if nm = k ∧ l.once = true then none else some l
       | _, o => o) := by
  rcases m with ⟨mid, mn, mp, mw⟩
  cases mn with
  | vStr nm =>
      rcases hlk : st.customEventListeners nm with _ | l
      · rw [dispatchCall_noChannel st ⟨mid, .vStr nm, mp, mw⟩ env nm rfl hlk]
        rcases hk : st.customEventListeners k with _ | l'
        · simp
        · by_cases hnmk : nm = k
          · subst hnmk; rw [hlk] at hk; exact absurd hk (by simp)
          · simp [hnmk]
      · rw [dispatchCall_found_state st ⟨mid, .vStr nm, mp, mw⟩ env nm l rfl hlk]
        by_cases ho : l.once
        · by_cases hnmk : nm = k
          · subst hnmk
            simp [ho, hlk, removeListener, setListener]
          · have : (k == nm) = false := by
              simp [beq_iff_eq]; exact fun he => hnmk he.symm
            rcases hk : st.customEventListeners k with _ | l' <;>
              simp [ho, hnmk, removeListener, setListener, this, hk]
        · by_cases hnmk : nm = k
          · subst hnmk
            simp [ho, hlk]
          · rcases hk : st.customEventListeners k with _ | l' <;>
              simp [ho, hnmk, hk]
  | vNull => rcases hk : st.customEventListeners k with _ | l' <;> simp [dispatchCall, hk]
  | vBool b => rcases hk : st.customEventListeners k with _ | l' <;> simp [dispatchCall, hk]
  | vNum n => rcases hk : st.customEventListeners k with _ | l' <;> simp [dispatchCall, hk]
  | vList xs => rcases hk : st.customEventListeners k with _ | l' <;> simp [dispatchCall, hk]
  | vObj fs => rcases hk : st.customEventListeners k with _ | l' <;> simp [dispatchCall, hk]

theorem handleAnswer_invariants (st : SocketState) (m : RawMsg) :
    (handleAnswer st m).1.isTerminated = st.isTerminated ∧
    (handleAnswer st m).1.targetOrigin = st.targetOrigin ∧
    (handleAnswer st m).1.listenerAttached = st.listenerAttached ∧
    (handleAnswer st m).1.customEventListeners = st.customEventListeners ∧
    (handleAnswer st m).1.messageCounter = st.messageCounter := by
  rcases m with ⟨mid, mn, mp, mw⟩
  cases mid <;> exact ⟨rfl, rfl, rfl, rfl, rfl⟩

theorem onMessage_invariants (st : SocketState) (ev : MessageEvent) (env : Env) :
    (onMessage st ev env).1.isTerminated = st.isTerminated ∧
    (onMessage st ev env).1.targetOrigin = st.targetOrigin ∧
    (onMessage st ev env).1.listenerAttached = st.listenerAttached := by
  unfold onMessage
  split
  · exact ⟨rfl, rfl, rfl⟩
  · split
    · exact ⟨rfl, rfl, rfl⟩
    · split
      · exact ⟨rfl, rfl, rfl⟩
      · rcases hp : parseData ev.data with e | m
        · simp [hp]
        · simp only [hp]
          split
          · have h := handleAnswer_invariants st m
            exact ⟨h.1, h.2.1, h.2.2.1⟩
          · have h := dispatchCall_invariants st m env
            exact ⟨h.1, h.2.1, h.2.2.1⟩

theorem invocationCount_shape (n nm : String) (p : JSValue) (b : Bool)
    (rest : List Effect) (hrest : ∀ k q c, Effect.invoked k q c ∉ rest) :
    invocationCount n (Effect.invoked nm p b :: rest) = if nm = n then 1 else 0 := by
  rw [invocationCount_cons_invoked, invocationCount_no_invoked n rest hrest]
  omega

theorem dispatchCall_step_once (st : SocketState) (m : RawMsg) (env : Env)
    (n : String) (l : Listener)
    (hl : st.customEventListeners n = some l) (ho : l.once = true) :
    (((dispatchCall st m env).1.customEventListeners n = some l ∧
        invocationCount n (dispatchCall st m env).2 = 0) ∨
      ((dispatchCall st m env).1.customEventListeners n = none ∧
        invocationCount n (dispatchCall st m env).2 = 1)) ∧
    (∀ p b, Effect.invoked n p b ∈ (dispatchCall st m env).2 → b = false) := by
  rcases m with ⟨mid, mn, mp, mw⟩
  cases mn with
  | vStr nm =>
      rcases hlk : st.customEventListeners nm with _ | l'
      · rw [dispatchCall_noChannel st ⟨mid, .vStr nm, mp, mw⟩ env nm rfl hlk]
        refine ⟨Or.inl ⟨hl, rfl⟩, ?_⟩
        intro p b hmem
        simp at hmem
      · obtain ⟨rest, hshape, hrest⟩ :=
          dispatchCall_found_effects_shape st ⟨mid, .vStr nm, mp, mw⟩ env nm l' rfl hlk
        have hlist := dispatchCall_listeners st ⟨mid, .vStr nm, mp, mw⟩ env n
        by_cases hnmk : nm = n
        · subst hnmk
          have hll : l' = l := by rw [hl] at hlk; exact (Option.some.inj hlk).symm
          subst hll
          refine ⟨Or.inr ⟨?_, ?_⟩, ?_⟩
          · rw [hlist, hl]; simp [ho]
          · rw [hshape, invocationCount_shape _ _ _ _ _ hrest]; simp
          · intro p b hmem
            rw [hshape] at hmem
            rcases List.mem_cons.mp hmem with h1 | h2
            · cases h1; simp [ho]
            · exact absurd h2 (hrest _ _ _)
        · refine ⟨Or.inl ⟨?_, ?_⟩, ?_⟩
          · rw [hlist, hl]; simp [hnmk]
          · rw [hshape, invocationCount_shape _ _ _ _ _ hrest]; simp [hnmk]
          · intro p b hmem
            rw [hshape] at hmem
            rcases List.mem_cons.mp hmem with h1 | h2
            · cases h1; exact absurd rfl hnmk
            · exact absurd h2 (hrest _ _ _)
  | vNull => exact ⟨Or.inl ⟨hl, rfl⟩, by intro p b h; simp [dispatchCall] at h⟩
  | vBool b => exact ⟨Or.inl ⟨hl, rfl⟩, by intro p b h; simp [dispatchCall] at h⟩
  | vNum k => exact ⟨Or.inl ⟨hl, rfl⟩, by intro p b h; simp [dispatchCall] at h⟩
  | vList xs => exact ⟨Or.inl ⟨hl, rfl⟩, by intro p b h; simp [dispatchCall] at h⟩
  | vObj fs => exact ⟨Or.inl ⟨hl, rfl⟩, by intro p b h; simp [dispatchCall] at h⟩

theorem dispatchCall_step_missing (st : SocketState) (m : RawMsg) (env : Env)
    (n : String) (hl : st.customEventListeners n = none) :
    (dispatchCall st m env).1.customEventListeners n = none ∧
    invocationCount n (dispatchCall st m env).2 = 0 ∧
    (∀ p b, Effect.invoked n p b ∉ (dispatchCall st m env).2) := by
  rcases m with ⟨mid, mn, mp, mw⟩
  cases mn with
  | vStr nm =>
      rcases hlk : st.customEventListeners nm with _ | l'
      · rw [dispatchCall_noChannel st ⟨mid, .vStr nm, mp, mw⟩ env nm rfl hlk]
        exact ⟨hl, rfl, by intro p b h; simp at h⟩
      · obtain ⟨rest, hshape, hrest⟩ :=
          dispatchCall_found_effects_shape st ⟨mid, .vStr nm, mp, mw⟩ env nm l' rfl hlk
        have hlist := dispatchCall_listeners st ⟨mid, .vStr nm, mp, mw⟩ env n
        have hnmk : nm ≠ n := by
          intro he; subst he; rw [hlk] at hl; exact absurd hl (by simp)
        refine ⟨?_, ?_, ?_⟩
        · rw [hlist, hl]
        · rw [hshape, invocationCount_shape _ _ _ _ _ hrest]; simp [hnmk]
        · intro p b hmem
          rw [hshape] at hmem
          rcases List.mem_cons.mp hmem with h1 | h2
          · cases h1; exact absurd rfl hnmk
          · exact absurd h2 (hrest _ _ _)
  | vNull => exact ⟨hl, rfl, by intro p b h; simp [dispatchCall] at h⟩
  | vBool b => exact ⟨hl, rfl, by intro p b h; simp [dispatchCall] at h⟩
  | vNum k => exact ⟨hl, rfl, by intro p b h; simp [dispatchCall] at h⟩
  | vList xs => exact ⟨hl, rfl, by intro p b h; simp [dispatchCall] at h⟩
  | vObj fs => exact ⟨hl, rfl, by intro p b h; simp [dispatchCall] at h⟩

theorem onMessage_step_once (st : SocketState) (ev : MessageEvent) (env : Env)
    (n : String) (l : Listener)
    (hl : st.customEventListeners n = some l) (ho : l.once = true) :
    (((onMessage st ev env).1.customEventListeners n = some l ∧
        invocationCount n (onMessage st ev env).2 = 0) ∨
      ((onMessage st ev env).1.customEventListeners n = none ∧
        invocationCount n (onMessage st ev env).2 = 1)) ∧
    (∀ p b, Effect.invoked n p b ∈ (onMessage st ev env).2 → b = false) := by
  unfold onMessage
  split
  · exact ⟨Or.inl ⟨hl, rfl⟩, by intro p b h; simp at h⟩
  · split
    · exact ⟨Or.inl ⟨hl, rfl⟩, by intro p b h; simp at h⟩
    · split
      · exact ⟨Or.inl ⟨hl, rfl⟩, by intro p b h; simp at h⟩
      · rcases hp : parseData ev.data with e | m
        · exact ⟨Or.inl ⟨hl, rfl⟩, by intro p b h; simp at h⟩
        · simp only []
          split
          · have hli := (handleAnswer_invariants st m).2.2.2.1
            rcases m with ⟨mid, mn, mp, mw⟩
            refine ⟨Or.inl ⟨?_, ?_⟩, ?_⟩
            · rw [hli]; exact hl
            · cases mid <;> rfl
            · intro p b h
              cases mid <;> simp [handleAnswer] at h
          · exact dispatchCall_step_once st m env n l hl ho

theorem onMessage_step_missing (st : SocketState) (ev : MessageEvent) (env : Env)
    (n : String) (hl : st.customEventListeners n = none) :
    (onMessage st ev env).1.customEventListeners n = none ∧
    invocationCount n (onMessage st ev env).2 = 0 ∧
    (∀ p b, Effect.invoked n p b ∉ (onMessage st ev env).2) := by
  unfold onMessage
  split
  · exact ⟨hl, rfl, by intro p b h; simp at h⟩
  · split
    · exact ⟨hl, rfl, by intro p b h; simp at h⟩
    · split
      · exact ⟨hl, rfl, by intro p b h; simp at h⟩
      · rcases hp : parseData ev.data with e | m
        · exact ⟨hl, rfl, by intro p b h; simp at h⟩
        · simp only []
          split
          · have hli := (handleAnswer_invariants st m).2.2.2.1
            rcases m with ⟨mid, mn, mp, mw⟩
            refine ⟨?_, ?_, ?_⟩
            · rw [hli]; exact hl
            · cases mid <;> rfl
            · intro p b h
              cases mid <;> simp [handleAnswer] at h
          · exact dispatchCall_step_missing st m env n hl

theorem invocationCount_append (n : String) (a b : List Effect) :
    invocationCount n (a ++ b) = invocationCount n a + invocationCount n b := by
  unfold invocationCount
  exact List.countP_append _ _ _

theorem runEvents_invariants (evs : List (MessageEvent × Env)) :
    ∀ st : SocketState,
      (runEvents st evs).1.isTerminated = st.isTerminated ∧
      (runEvents st evs).1.targetOrigin = st.targetOrigin := by
  induction evs with
  | nil => intro st; exact ⟨rfl, rfl⟩
  | cons e rest ih =>
      intro st
      rcases e with ⟨ev, env⟩
      have h1 := onMessage_invariants st ev env
      have h2 := ih (onMessage st ev env).1
      unfold runEvents
      exact ⟨h2.1.trans h1.1, h2.2.trans h1.2.1⟩

theorem runEvents_missing (evs : List (MessageEvent × Env)) :
    ∀ (st : SocketState) (n : String),
      st.customEventListeners n = none →
      (runEvents st evs).1.customEventListeners n = none ∧
      invocationCount n (runEvents st evs).2 = 0 ∧
      (∀ p b, Effect.invoked n p b ∉ (runEvents st evs).2) := by
  induction evs with
  | nil =>
      intro st n hl
      exact ⟨hl, rfl, by intro p b h; simp [runEvents] at h⟩
  | cons e rest ih =>
      intro st n hl
      rcases e with ⟨ev, env⟩
      obtain ⟨h1, h2, h3⟩ := onMessage_step_missing st ev env n hl
      obtain ⟨g1, g2, g3⟩ := ih (onMessage st ev env).1 n h1
      unfold runEvents
      refine ⟨g1, ?_, ?_⟩
      · rw [invocationCount_append, h2, g2]
      · intro p b hmem
        rcases List.mem_append.mp hmem with hm | hm
        · exact absurd hm (h3 p b)
        · exact absurd hm (g3 p b)

theorem runEvents_once (evs : List (MessageEvent × Env)) :
    ∀ (st : SocketState) (n : String) (l : Listener),
      st.customEventListeners n = some l → l.once = true →
      (((runEvents st evs).1.customEventListeners n = some l ∧
          invocationCount n (runEvents st evs).2 = 0) ∨
        ((runEvents st evs).1.customEventListeners n = none ∧
          invocationCount n (runEvents st evs).2 = 1)) ∧
      (∀ p b, Effect.invoked n p b ∈ (runEvents st evs).2 → b = false) := by
  induction evs with
  | nil =>
      intro st n l hl ho
      exact ⟨Or.inl ⟨hl, rfl⟩, by intro p b h; simp [runEvents] at h⟩
  | cons e rest ih =>
      intro st n l hl ho
      rcases e with ⟨ev, env⟩
      obtain ⟨hstep, hflag⟩ := onMessage_step_once st ev env n l hl ho
      unfold runEvents
      rcases hstep with ⟨hsome, hc0⟩ | ⟨hnone, hc1⟩
      · obtain ⟨hrest, hrflag⟩ := ih (onMessage st ev env).1 n l hsome ho
        constructor
        · rcases hrest with ⟨ha, hb⟩ | ⟨ha, hb⟩
          · exact Or.inl ⟨ha, by rw [invocationCount_append, hc0, hb]⟩
          · exact Or.inr ⟨ha, by rw [invocationCount_append, hc0, hb]⟩
        · intro p b hmem
          rcases List.mem_append.mp hmem with h1 | h2
          · exact hflag p b h1
          · exact hrflag p b h2
      · obtain ⟨hmiss, hmc, hmnone⟩ :=
          runEvents_missing rest (onMessage st ev env).1 n hnone
        constructor
        · exact Or.inr ⟨hmiss, by rw [invocationCount_append, hc1, hmc]⟩
        · intro p b hmem
          rcases List.mem_append.mp hmem with h1 | h2
          · exact hflag p b h1
          · exact absurd h2 (hmnone p b)

theorem isAnswerId_true_exists (st : SocketState) (v : JSValue)
    (h : isAnswerId st v = true) : ∃ s, v = .vStr s ∧ st.answerHandlers s = true := by
  cases v <;> simp [isAnswerId] at h
  exact ⟨_, rfl, h⟩

theorem parseData_ok_of_validate (d : JSValue) (h : validateMessage d = true) :
    ∃ m, parseData d = .ok m := by
  cases d with
  | vObj fs =>
      refine ⟨⟨getField fs "id", getField fs "name", getField fs "payload",
        getField fs "waitForResponse"⟩, ?_⟩
      simp [parseData, h]
  | vNull => simp [validateMessage] at h
  | vBool b => simp [validateMessage] at h
  | vNum n => simp [validateMessage] at h
  | vStr s => simp [validateMessage] at h
  | vList xs => simp [validateMessage] at h

theorem parseData_error_of_not_validate (d : JSValue) (h : validateMessage d = false) :
    parseData d = .error .wrongMessagePayload := by
  cases d with
  | vObj fs => simp [parseData, h]
  | vNull => rfl
  | vBool b => rfl
  | vNum n => rfl
  | vStr s => rfl
  | vList xs => rfl

theorem no_report_in_handleAnswer (st : SocketState) (m : RawMsg) (r : ErrorReport) :
    Effect.reportError r ∉ (handleAnswer st m).2 := by
  rcases m with ⟨mid, mn, mp, mw⟩
  cases mid <;> simp [handleAnswer]

theorem wrongPayload_not_in_dispatchCall (st : SocketState) (m : RawMsg) (env : Env) :
    Effect.reportError .wrongMessagePayload ∉ (dispatchCall st m env).2 := by
  rcases m with ⟨mid, mn, mp, mw⟩
  cases mn with
  | vStr nm =>
      rcases hlk : st.customEventListeners nm with _ | l
      · rw [dispatchCall_noChannel st ⟨mid, .vStr nm, mp, mw⟩ env nm rfl hlk]
        simp
      · rcases hcb : l.callback mp with v | msg <;>
          by_cases hw : jsTruthy mw <;>
            simp [dispatchCall, hlk, hcb, hw, sendPostMessage, getNextMsgId]
  | vNull => simp [dispatchCall]
  | vBool b => simp [dispatchCall]
  | vNum k => simp [dispatchCall]
  | vList xs => simp [dispatchCall]
  | vObj fs => simp [dispatchCall]

theorem stepOp_terminated (st : SocketState) (op : SocketOp) (h : st.isTerminated = true) :
    (stepOp st op).1.isTerminated = true ∧
    (∀ s p, Effect.settle s p ∉ (stepOp st op).2) := by
  cases op with
  | deliver ev env =>
      simp only [stepOp, onMessage, h]
      exact ⟨h, by intro s p hm; simp at hm⟩
  | chanSend name payload msgId env =>
      constructor
      · simp only [stepOp, channelSend, sendPostMessage_state]
        split <;> simpa using h
      · intro s p hm
        simp [stepOp, channelSend] at hm
  | chanSendAndWait name payload env =>
      constructor
      · simp only [stepOp, channelSendAndWait_state]
        simpa using h
      · intro s p hm
        rw [stepOp] at hm
        simp only [channelSendAndWait_effects] at hm
        simp at hm
  | createChannel name l =>
      simp only [stepOp, createMessageChannel, h]
      exact ⟨h, by intro s p hm; simp at hm⟩
  | removeChan name =>
      exact ⟨by simpa [stepOp, removeListener] using h, by intro s p hm; simp [stepOp] at hm⟩
  | terminateOp =>
      exact ⟨rfl, by intro s p hm; simp [stepOp] at hm⟩

theorem runOps_terminated (ops : List SocketOp) :
    ∀ st : SocketState, st.isTerminated = true →
      ∀ s p, Effect.settle s p ∉ (runOps st ops).2 := by
  induction ops with
  | nil => intro st h s p hm; simp [runOps] at hm
  | cons op rest ih =>
      intro st h s p hm
      obtain ⟨h1, h2⟩ := stepOp_terminated st op h
      unfold runOps at hm
      rcases List.mem_append.mp hm with hx | hx
      · exact absurd hx (h2 s p)
      · exact absurd hx (ih (stepOp st op).1 h1 s p)

theorem runSendAndWaits_invariants (n : String) (p : JSValue) (envs : List Env) :
    ∀ st : SocketState,
      (runSendAndWaits st n p envs).1.isTerminated = st.isTerminated ∧
      (runSendAndWaits st n p envs).1.targetOrigin = st.targetOrigin := by
  induction envs with
  | nil => intro st; exact ⟨rfl, rfl⟩
  | cons env rest ih =>
      intro st
      unfold runSendAndWaits
      have h := ih (channelSendAndWait st n p env).1
      rw [channelSendAndWait_state] at h
      exact h

theorem runSendAndWaits_ids (n : String) (p : JSValue) (envs : List Env) :
    ∀ st : SocketState,
      ((runSendAndWaits st n p envs).2).map parseCounter =
        List.range' st.messageCounter envs.length := by
  induction envs with
  | nil => intro st; simp [runSendAndWaits]
  | cons env rest ih =>
      intro st
      unfold runSendAndWaits
      simp only [List.map_cons, channelSendAndWait_id, parseCounter_mkMsgId,
        channelSendAndWait_state, List.length_cons]
      rw [ih]
      simp [List.range']

theorem buildParentCallbacks_go (names : List String) :
    ∀ (st : SocketState) (acc : List String), st.isTerminated = false →
      (names.foldl
        (fun acc nm =>
          let r := createMessageChannel acc.1 nm dummyListener
          (r.1, match r.2.1 with
                | some _ => acc.2 ++ [nm]
                | none => acc.2))
        (st, acc)).2 = acc ++ names := by
  induction names with
  | nil => intro st acc h; simp
  | cons nm rest ih =>
      intro st acc h
      simp only [List.foldl_cons]
      rw [show createMessageChannel st nm dummyListener =
        ({ st with customEventListeners := setListener st.customEventListeners nm (some dummyListener) },
         some (), []) from by simp [createMessageChannel, h]]
      have := ih { st with customEventListeners := setListener st.customEventListeners nm (some dummyListener) }
        (acc ++ [nm]) (by simpa using h)
      simpa using this

/-!
## Claims
-/

/-- C4, counterexample: an envelope in which all four fields are present
but wrongly typed (`id` and `name` numbers, `waitForResponse` a string)
is NOT rejected with a format error — it passes `validateMessage` and
reaches channel dispatch (here: the no-channel report for the numeric
name), contradicting the claim that such an envelope is rejected before
any dispatch. -/
theorem c4_wrong_types_not_rejected :
    validateMessage (JSValue.vObj [("name", .vNum 1), ("payload", .vNull),
      ("id", .vNum 5), ("waitForResponse", .vStr "yes")]) = true
    ∧ onMessage (mkSocket "o")
        ⟨true, "o", JSValue.vObj [("name", .vNum 1), ("payload", .vNull),
          ("id", .vNum 5), ("waitForResponse", .vStr "yes")]⟩ sampleEnv
      = (mkSocket "o", [.reportError (.noChannel (.vNum 1))]) := by
  exact ⟨rfl, rfl⟩

/-- C4 (amended): envelope validation is presence-only.  An inbound
delivery that passes the sender and origin checks is rejected with the
format error (and nothing else happens, the state is unchanged) exactly
when its data fails `validateMessage`, i.e. is not an object carrying
all four envelope fields; the types of the four fields are not
inspected, so an envelope with all fields present but wrongly typed
proceeds to the pending-table lookup and channel dispatch. -/
theorem c4_validation_presence_only (st : SocketState) (ev : MessageEvent) (env : Env)
    (hterm : st.isTerminated = false) (hsrc : ev.sourceIsTarget = true)
    (horig : ev.origin = st.targetOrigin) :
    onMessage st ev env = (st, [.reportError .wrongMessagePayload]) ↔
      validateMessage ev.data = false := by
  rw [onMessage_accepted st ev env hterm hsrc horig]
  constructor
  · intro h
    by_contra hv
    have hv' : validateMessage ev.data = true := by
      cases hvv : validateMessage ev.data
      · exact absurd hvv hv
      · rfl
    obtain ⟨m, hm⟩ := parseData_ok_of_validate ev.data hv'
    rw [hm] at h
    by_cases ha : isAnswerId st m.id
    · simp only [ha, if_true] at h
      have h2 := congrArg Prod.snd h
      have hmem : Effect.reportError .wrongMessagePayload ∈ (handleAnswer st m).2 := by
        rw [h2]; simp
      exact no_report_in_handleAnswer st m _ hmem
    · simp only [Bool.not_eq_true] at ha
      simp only [ha, Bool.false_eq_true, if_false] at h
      have h2 := congrArg Prod.snd h
      have hmem : Effect.reportError .wrongMessagePayload ∈ (dispatchCall st m env).2 := by
        rw [h2]; simp
      exact wrongPayload_not_in_dispatchCall st m env hmem
  · intro h
    rw [parseData_error_of_not_validate ev.data h]

/-- Witness for C4 (amended) at a concrete input: a live socket with a
string as `event.data` is rejected with exactly the format error. -/
theorem c4_validation_presence_only_witness :
    onMessage (mkSocket "o") ⟨true, "o", .vStr "junk"⟩ sampleEnv =
        (mkSocket "o", [.reportError .wrongMessagePayload]) ↔
      validateMessage (.vStr "junk") = false :=
  c4_validation_presence_only (mkSocket "o") ⟨true, "o", .vStr "junk"⟩ sampleEnv
    rfl rfl rfl

/-- C5, counterexample: after `terminate()`, the `send` closure of a
channel obtained before termination still transmits an envelope, and
`sendAndWait` still mutates the socket state (it registers a pending
entry) — contradicting the claim that no operation on previously
obtained channel objects mutates state or transmits after termination. -/
theorem c5_channel_ops_after_terminate :
    (terminate chanSocket).isTerminated = true
    ∧ (channelSend (terminate chanSocket) "a" (.vStr "x") none sampleEnv).2 =
        [.post ⟨.vStr "0-r1a2b3c-t9z8", "a", .vStr "x", false⟩]
    ∧ (channelSendAndWait (terminate chanSocket) "a" (.vStr "x") sampleEnv).1.answerHandlers
        "0-r1a2b3c-t9z8" = true
    ∧ (channelSendAndWait (terminate chanSocket) "a" (.vStr "x") sampleEnv).1.messageCounter
        = (terminate chanSocket).messageCounter + 1 := by
  exact ⟨rfl, rfl, rfl, rfl⟩

/-- C5 (amended): termination is a one-way latch: `terminate` is
idempotent (re-entry is harmless), `createMessageChannel` on a
terminated socket returns `none` and reports `SocketIsTerminated`, and
inbound dispatch on a terminated socket only reports that error and
leaves the state unchanged.  However, the `send`/`sendAndWait` closures
of channels obtained before termination contain no terminated-check:
`send` still posts an envelope, and `sendAndWait` still posts and
registers a fresh pending entry. -/
theorem c5_terminate_latch (st : SocketState) (name : String) (l : Listener)
    (p : JSValue) (msgId : Option String) (env : Env) (ev : MessageEvent) :
    terminate (terminate st) = terminate st
    ∧ createMessageChannel (terminate st) name l =
        (terminate st, none, [.reportError .socketIsTerminated])
    ∧ onMessage (terminate st) ev env =
        (terminate st, [.reportError .socketIsTerminated])
    ∧ (∃ e : Envelope, (channelSend (terminate st) name p msgId env).2 = [.post e])
    ∧ (channelSendAndWait (terminate st) name p env).1.answerHandlers
        (mkMsgId (terminate st).messageCounter env.rand env.time) = true := by
  refine ⟨rfl, rfl, rfl, ⟨(sendPostMessage (terminate st) name p false (msgId.map .vStr) env).2, rfl⟩, ?_⟩
  rw [channelSendAndWait_state]
  simp [addPending]

/-- C6: `terminate()` removes every pending entry and every channel,
but never settles an outstanding `sendAndWait` promise: `terminate`
itself produces no `settle` observation (it is a pure state
transition), and no trace of subsequent operations on the terminated
socket can ever produce one, so the promise stays unsettled forever. -/
theorem c6_terminate_never_settles (st : SocketState) (id : String)
    (ops : List SocketOp) (h : st.answerHandlers id = true) :
    (terminate st).answerHandlers id = false
    ∧ (∀ n, (terminate st).customEventListeners n = none)
    ∧ (∀ s p, Effect.settle s p ∉ (runOps (terminate st) ops).2) := by
  refine ⟨rfl, fun n => rfl, ?_⟩
  exact runOps_terminated ops (terminate st) rfl

/-- Witness for C6: a socket with the pending request
`0-r1a2b3c-t9z8`; after termination, even delivering the matching reply
envelope settles nothing. -/
theorem c6_terminate_never_settles_witness :
    (terminate pendSocket).answerHandlers "0-r1a2b3c-t9z8" = false
    ∧ (∀ n, (terminate pendSocket).customEventListeners n = none)
    ∧ (∀ s p, Effect.settle s p ∉
        (runOps (terminate pendSocket)
          [.deliver (mkEvent true "o" ⟨.vStr "0-r1a2b3c-t9z8", "q", .vNull, false⟩)
            sampleEnv]).2) :=
  c6_terminate_never_settles pendSocket "0-r1a2b3c-t9z8"
    [.deliver (mkEvent true "o" ⟨.vStr "0-r1a2b3c-t9z8", "q", .vNull, false⟩) sampleEnv]
    (by rfl)

/-- C3: a channel registered with `once := true` is invoked at most
once across any sequence of inbound deliveries; at the moment its
handler is invoked the registration has already been removed from the
registry (the `registered` flag of the invocation is `false`, so
re-entrant inbound calls cannot re-trigger it); and once the invocation
has happened, a further inbound envelope addressed to that name (that
is not a reply) yields exactly the no-channel error report with no
handler invocation and no state change. -/
theorem c3_once_semantics (st : SocketState) (n : String) (l : Listener)
    (evs : List (MessageEvent × Env)) (e : Envelope) (env' : Env)
    (hl : st.customEventListeners n = some l) (ho : l.once = true)
    (hterm : st.isTerminated = false) (hname : e.name = n)
    (hna : isAnswerId (runEvents st evs).1 e.id = false) :
    invocationCount n (runEvents st evs).2 ≤ 1
    ∧ (∀ p b, Effect.invoked n p b ∈ (runEvents st evs).2 → b = false)
    ∧ (invocationCount n (runEvents st evs).2 = 1 →
        (runEvents st evs).1.customEventListeners n = none
        ∧ onMessage (runEvents st evs).1 (mkEvent true st.targetOrigin e) env' =
            ((runEvents st evs).1, [.reportError (.noChannel (.vStr n))])) := by
  obtain ⟨hstep, hflag⟩ := runEvents_once evs st n l hl ho
  refine ⟨?_, hflag, ?_⟩
  · rcases hstep with ⟨_, hc⟩ | ⟨_, hc⟩ <;> omega
  · intro hc1
    rcases hstep with ⟨hsome, hc0⟩ | ⟨hnone, _⟩
    · omega
    · refine ⟨hnone, ?_⟩
      rcases e with ⟨eid, en, ep, ew⟩
      have hen : en = n := hname
      subst hen
      have hinv := runEvents_invariants evs st
      have hterm' : (runEvents st evs).1.isTerminated = false := hinv.1.trans hterm
      have horig' : (mkEvent true st.targetOrigin ⟨eid, en, ep, ew⟩).origin =
          (runEvents st evs).1.targetOrigin := by
        simp [mkEvent, hinv.2]
      rw [onMessage_accepted _ _ _ hterm' rfl horig']
      have hdata : (mkEvent true st.targetOrigin ⟨eid, en, ep, ew⟩).data =
          Envelope.toJS ⟨eid, en, ep, ew⟩ := rfl
      rw [hdata, parseData_toJS]
      simp only [hna, Bool.false_eq_true, if_false]
      exact dispatchCall_noChannel _ _ _ en rfl hnone

/-- Witness for C3: the `once` channel "evt"; after one inbound
envelope for it, a second envelope for "evt" reports the no-channel
error. -/
theorem c3_once_semantics_witness :
    invocationCount "evt"
      (runEvents onceSocket
        [(mkEvent true "o" ⟨.vStr "1-x-y", "evt", .vNull, false⟩, sampleEnv)]).2 ≤ 1
    ∧ (∀ p b, Effect.invoked "evt" p b ∈
        (runEvents onceSocket
          [(mkEvent true "o" ⟨.vStr "1-x-y", "evt", .vNull, false⟩, sampleEnv)]).2 → b = false)
    ∧ (invocationCount "evt"
        (runEvents onceSocket
          [(mkEvent true "o" ⟨.vStr "1-x-y", "evt", .vNull, false⟩, sampleEnv)]).2 = 1 →
        (runEvents onceSocket
          [(mkEvent true "o" ⟨.vStr "1-x-y", "evt", .vNull, false⟩, sampleEnv)]).1.customEventListeners
            "evt" = none
        ∧ onMessage
            (runEvents onceSocket
              [(mkEvent true "o" ⟨.vStr "1-x-y", "evt", .vNull, false⟩, sampleEnv)]).1
            (mkEvent true onceSocket.targetOrigin ⟨.vStr "2-x-y", "evt", .vNum 7, true⟩)
            sampleEnv =
          ((runEvents onceSocket
            [(mkEvent true "o" ⟨.vStr "1-x-y", "evt", .vNull, false⟩, sampleEnv)]).1,
           [.reportError (.noChannel (.vStr "evt"))])) :=
  c3_once_semantics onceSocket "evt" (onceListener (.vStr "v"))
    [(mkEvent true "o" ⟨.vStr "1-x-y", "evt", .vNull, false⟩, sampleEnv)]
    ⟨.vStr "2-x-y", "evt", .vNum 7, true⟩ sampleEnv
    (by rfl) (by rfl) (by rfl) (by rfl) (by rfl)

/-- C2: K `sendAndWait` calls on one socket generate ids whose counter
segments are exactly the consecutive counter values (the per-instance
counter is monotonically increasing), hence the K ids are pairwise
distinct; and an inbound reply carrying an id that is pending settles
exactly that pending request — the state change is precisely the
removal of that entry and the only observation is its settlement with
the reply's payload — in any state in which the id is pending, hence
regardless of the order in which replies arrive. -/
theorem c2_correlation_uniqueness (st : SocketState) (n : String) (p : JSValue)
    (envs : List Env) (ev : MessageEvent) (env : Env) (m : RawMsg) (s : String)
    (hterm : st.isTerminated = false)
    (hsrc : ev.sourceIsTarget = true) (horig : ev.origin = st.targetOrigin)
    (hparse : parseData ev.data = .ok m) (hid : m.id = .vStr s)
    (hpend : (runSendAndWaits st n p envs).1.answerHandlers s = true) :
    ((runSendAndWaits st n p envs).2).map parseCounter =
      List.range' st.messageCounter envs.length
    ∧ ((runSendAndWaits st n p envs).2).Nodup
    ∧ onMessage (runSendAndWaits st n p envs).1 ev env =
        ({ (runSendAndWaits st n p envs).1 with
            answerHandlers :=
              removePending (runSendAndWaits st n p envs).1.answerHandlers s },
         [.settle s m.payload]) := by
  have hids := runSendAndWaits_ids n p envs st
  refine ⟨hids, ?_, ?_⟩
  · have : (((runSendAndWaits st n p envs).2).map parseCounter).Nodup := by
      rw [hids]; exact List.nodup_range' _ _
    exact this.of_map parseCounter
  · have hinv := runSendAndWaits_invariants n p envs st
    have hterm' : (runSendAndWaits st n p envs).1.isTerminated = false :=
      hinv.1.trans hterm
    have horig' : ev.origin = (runSendAndWaits st n p envs).1.targetOrigin := by
      rw [hinv.2]; exact horig
    rw [onMessage_accepted _ _ _ hterm' hsrc horig', hparse]
    have ha : isAnswerId (runSendAndWaits st n p envs).1 m.id = true := by
      rw [hid]; exact hpend
    simp only [ha, if_true]
    exact handleAnswer_eq _ m s hid

/-- Witness for C2: two concurrent `sendAndWait` calls generate the ids
`0-aa-t1` and `1-bb-t2`; the reply to the second one, arriving first,
settles exactly that request. -/
theorem c2_correlation_uniqueness_witness :
    ((runSendAndWaits (mkSocket "o") "q" .vNull [⟨"aa", "t1"⟩, ⟨"bb", "t2"⟩]).2).map
        parseCounter = List.range' (mkSocket "o").messageCounter 2
    ∧ ((runSendAndWaits (mkSocket "o") "q" .vNull [⟨"aa", "t1"⟩, ⟨"bb", "t2"⟩]).2).Nodup
    ∧ onMessage (runSendAndWaits (mkSocket "o") "q" .vNull [⟨"aa", "t1"⟩, ⟨"bb", "t2"⟩]).1
        (mkEvent true "o" ⟨.vStr "1-bb-t2", "q", .vStr "second", false⟩) sampleEnv =
        ({ (runSendAndWaits (mkSocket "o") "q" .vNull [⟨"aa", "t1"⟩, ⟨"bb", "t2"⟩]).1 with
            answerHandlers :=
              removePending
                (runSendAndWaits (mkSocket "o") "q" .vNull
                  [⟨"aa", "t1"⟩, ⟨"bb", "t2"⟩]).1.answerHandlers "1-bb-t2" },
         [.settle "1-bb-t2" (.vStr "second")]) :=
  c2_correlation_uniqueness (mkSocket "o") "q" .vNull [⟨"aa", "t1"⟩, ⟨"bb", "t2"⟩]
    (mkEvent true "o" ⟨.vStr "1-bb-t2", "q", .vStr "second", false⟩) sampleEnv
    ⟨.vStr "1-bb-t2", .vStr "q", .vStr "second", .vBool false⟩ "1-bb-t2"
    (by rfl) (by rfl) (by rfl) (by rfl) (by rfl) (by rfl)

/-- C1: round trip.  Socket B has a channel `n` whose handler returns
`v` for payload `p`; socket A (paired with B, its request id fresh for
B) has a channel under the same name.  Then A's `sendAndWait(p)` posts
a request envelope, B's dispatch of that envelope posts a reply
carrying `v` under the same id, and A's dispatch of that reply settles
A's pending request with exactly `v` — the value B's handler returned. -/
theorem c1_round_trip (stA stB : SocketState) (n : String) (la lb : Listener)
    (p v : JSValue) (envA envB envA2 : Env)
    (htermA : stA.isTerminated = false) (htermB : stB.isTerminated = false)
    (hla : stA.customEventListeners n = some la)
    (hlb : stB.customEventListeners n = some lb)
    (hcb : lb.callback p = .ok v)
    (hfresh : stB.answerHandlers (mkMsgId stA.messageCounter envA.rand envA.time) = false) :
    (channelSendAndWait stA n p envA).2.2 =
      [.post ⟨.vStr (mkMsgId stA.messageCounter envA.rand envA.time), n, p, true⟩]
    ∧ Effect.post ⟨.vStr (mkMsgId stA.messageCounter envA.rand envA.time), n, v, false⟩ ∈
        (onMessage stB
          (mkEvent true stB.targetOrigin
            ⟨.vStr (mkMsgId stA.messageCounter envA.rand envA.time), n, p, true⟩) envB).2
    ∧ (onMessage (channelSendAndWait stA n p envA).1
        (mkEvent true stA.targetOrigin
          ⟨.vStr (mkMsgId stA.messageCounter envA.rand envA.time), n, v, false⟩) envA2).2 =
        [.settle (mkMsgId stA.messageCounter envA.rand envA.time) v] := by
  refine ⟨channelSendAndWait_effects stA n p envA, ?_, ?_⟩
  · rw [onMessage_accepted stB _ envB htermB rfl rfl]
    have hdata : (mkEvent true stB.targetOrigin
        ⟨.vStr (mkMsgId stA.messageCounter envA.rand envA.time), n, p, true⟩).data =
        Envelope.toJS ⟨.vStr (mkMsgId stA.messageCounter envA.rand envA.time), n, p, true⟩ := rfl
    rw [hdata, parseData_toJS]
    have hna : isAnswerId stB (JSValue.vStr (mkMsgId stA.messageCounter envA.rand envA.time)) = false := hfresh
    simp only [hna, Bool.false_eq_true, if_false]
    rw [dispatchCall_ok_truthy_effects stB
      ⟨.vStr (mkMsgId stA.messageCounter envA.rand envA.time), .vStr n, p, .vBool true⟩
      envB n lb v rfl hlb hcb rfl
      (by simp [jsTruthy, bne_iff_ne, mkMsgId_ne_empty])]
    simp
  · have hstA := channelSendAndWait_state stA n p envA
    have htermA' : (channelSendAndWait stA n p envA).1.isTerminated = false := by
      rw [hstA]; exact htermA
    have horigA' : (mkEvent true stA.targetOrigin
        ⟨.vStr (mkMsgId stA.messageCounter envA.rand envA.time), n, v, false⟩).origin =
        (channelSendAndWait stA n p envA).1.targetOrigin := by
      simp [mkEvent, hstA]
    rw [onMessage_accepted _ _ envA2 htermA' rfl horigA']
    have hdata : (mkEvent true stA.targetOrigin
        ⟨.vStr (mkMsgId stA.messageCounter envA.rand envA.time), n, v, false⟩).data =
        Envelope.toJS ⟨.vStr (mkMsgId stA.messageCounter envA.rand envA.time), n, v, false⟩ := rfl
    rw [hdata, parseData_toJS]
    have ha : isAnswerId (channelSendAndWait stA n p envA).1
        (JSValue.vStr (mkMsgId stA.messageCounter envA.rand envA.time)) = true := by
      rw [hstA]; simp [isAnswerId, addPending]
    simp only [ha, if_true]
    rw [handleAnswer_eq _ _ (mkMsgId stA.messageCounter envA.rand envA.time) rfl]

/-- Witness for C1: both sockets have channel "a"; B's handler returns
"res"; A's `sendAndWait("ping")` is settled with "res". -/
theorem c1_round_trip_witness :
    (channelSendAndWait (createMessageChannel (mkSocket "o") "a" (okListener .vNull)).1
      "a" (.vStr "ping") sampleEnv).2.2 =
      [.post ⟨.vStr "0-r1a2b3c-t9z8", "a", .vStr "ping", true⟩]
    ∧ Effect.post ⟨.vStr "0-r1a2b3c-t9z8", "a", .vStr "res", false⟩ ∈
        (onMessage chanSocket
          (mkEvent true chanSocket.targetOrigin
            ⟨.vStr "0-r1a2b3c-t9z8", "a", .vStr "ping", true⟩) sampleEnv).2
    ∧ (onMessage
        (channelSendAndWait (createMessageChannel (mkSocket "o") "a" (okListener .vNull)).1
          "a" (.vStr "ping") sampleEnv).1
        (mkEvent true
          ((createMessageChannel (mkSocket "o") "a" (okListener .vNull)).1).targetOrigin
          ⟨.vStr "0-r1a2b3c-t9z8", "a", .vStr "res", false⟩) sampleEnv).2 =
        [.settle "0-r1a2b3c-t9z8" (.vStr "res")] :=
  c1_round_trip (createMessageChannel (mkSocket "o") "a" (okListener .vNull)).1 chanSocket
    "a" (okListener .vNull) (okListener (.vStr "res")) (.vStr "ping") (.vStr "res")
    sampleEnv sampleEnv sampleEnv
    (by rfl) (by rfl) (by rfl) (by rfl) (by rfl) (by rfl)

/-- C10, counterexample: an accepted envelope whose id is the empty
string (falsy) and which requests a response makes the reply
transmission generate a FRESH id — the inbound id is not reused and
the message counter advances — contradicting the claim that dispatch
leaves the counter unchanged and replies always reuse the inbound id. -/
theorem c10_falsy_id_advances_counter :
    chanSocket.messageCounter = 0
    ∧ (onMessage chanSocket
        (mkEvent true "o" ⟨.vStr "", "a", .vNull, true⟩) sampleEnv).1.messageCounter = 1
    ∧ (onMessage chanSocket
        (mkEvent true "o" ⟨.vStr "", "a", .vNull, true⟩) sampleEnv).2 =
        [.invoked "a" .vNull true,
         .post ⟨.vStr "0-r1a2b3c-t9z8", "a", .vStr "res", false⟩] := by
  exact ⟨rfl, rfl, rfl⟩

/-- C10 (amended): dispatch frame property.  Processing one accepted
inbound envelope leaves the terminated flag untouched; it mutates at
most the pending entry carrying the envelope's id (removed, with its
settlement as the only observation, when it is a reply) and the
registry entry named by the envelope (removed only when that channel is
`once`); every other pending entry and registry entry is unchanged.
The counter is unchanged, except that a reply transmitted for an
envelope whose id is falsy (e.g. the empty string) is sent under a
freshly generated id, advancing the counter by one. -/
theorem c10_dispatch_frame (st : SocketState) (ev : MessageEvent) (env : Env)
    (m : RawMsg) (hterm : st.isTerminated = false) (hsrc : ev.sourceIsTarget = true)
    (horig : ev.origin = st.targetOrigin) (hparse : parseData ev.data = .ok m) :
    (onMessage st ev env).1.isTerminated = false
    ∧ (∀ s : String, m.id ≠ .vStr s →
        (onMessage st ev env).1.answerHandlers s = st.answerHandlers s)
    ∧ (∀ s : String, m.id = .vStr s → st.answerHandlers s = true →
        (onMessage st ev env).1 =
          { st with answerHandlers := removePending st.answerHandlers s }
        ∧ (onMessage st ev env).2 = [.settle s m.payload])
    ∧ (∀ k : String, m.name ≠ .vStr k →
        (onMessage st ev env).1.customEventListeners k = st.customEventListeners k)
    ∧ (∀ k l, isAnswerId st m.id = false → m.name = .vStr k →
        st.customEventListeners k = some l →
        (onMessage st ev env).1.customEventListeners k =
          (if l.once then none else some l))
    ∧ (isAnswerId st m.id = false →
        (onMessage st ev env).1.answerHandlers = st.answerHandlers)
    ∧ (isAnswerId st m.id = true →
        (onMessage st ev env).1.messageCounter = st.messageCounter)
    ∧ (isAnswerId st m.id = false →
        (onMessage st ev env).1.messageCounter =
          (match m.name with
           | .vStr nm =>
               if (st.customEventListeners nm).isSome
                   && jsTruthy m.waitForResponse && !(jsTruthy m.id)
               then st.messageCounter + 1 else st.messageCounter
           | _ => st.messageCounter)) := by
  rw [onMessage_accepted st ev env hterm hsrc horig, hparse]
  by_cases ha : isAnswerId st m.id
  · obtain ⟨s0, hid0, hp0⟩ := isAnswerId_true_exists st m.id ha
    simp only [ha, if_true]
    rw [handleAnswer_eq st m s0 hid0]
    refine ⟨hterm, ?_, ?_, fun k _ => rfl, fun k l hf => Bool.noConfusion hf,
      fun hf => Bool.noConfusion hf, fun _ => rfl, fun hf => Bool.noConfusion hf⟩
    · intro s hs
      have hss0 : s ≠ s0 := fun he => hs (he ▸ hid0)
      simp [removePending, hss0]
    · intro s hs hps
      have hseq : s = s0 := by
        rw [hid0] at hs
        injection hs with hh
        exact hh.symm
      subst hseq
      exact ⟨rfl, rfl⟩
  · have ha' : isAnswerId st m.id = false := by
      cases hx : isAnswerId st m.id
      · rfl
      · exact absurd hx ha
    simp only [ha', Bool.false_eq_true, if_false]
    have hinv := dispatchCall_invariants st m env
    refine ⟨hinv.1.trans hterm, ?_, ?_, ?_, ?_, fun _ => hinv.2.2.2, ?_, ?_⟩
    · intro s _
      rw [hinv.2.2.2]
    · intro s hs hps
      rw [hs] at ha'
      simp only [isAnswerId] at ha'
      rw [hps] at ha'
      exact absurd ha' (by simp)
    · intro k hk
      rw [dispatchCall_listeners st m env k]
      cases hmn : m.name with
      | vStr nm =>
          rcases hlk : st.customEventListeners k with _ | l'
          · simp
          · have hnmk : nm ≠ k := fun he => hk (hmn ▸ congrArg JSValue.vStr he)
            simp [hnmk]
      | vNull => simp
      | vBool b => simp
      | vNum nn => simp
      | vList xs => simp
      | vObj fs => simp
    · intro k l _ hnm hlk
      rw [dispatchCall_listeners st m env k, hnm, hlk]
      by_cases ho : l.once = true
      · simp [ho]
      · have ho' : l.once = false := by
          cases hx : l.once
          · rfl
          · exact absurd hx ho
        simp [ho']
    · intro hcontr
      exact hcontr.elim
    · intro _
      cases hmn : m.name with
      | vStr nm =>
          rcases hlk : st.customEventListeners nm with _ | l
          · rw [dispatchCall_noChannel st m env nm hmn hlk]
            simp [hlk]
          · rw [dispatchCall_found_state st m env nm l hmn hlk]
            simp [hlk]
      | vNull => rw [dispatchCall_nonStr st m env (by rw [hmn]; intro s h; cases h)]
      | vBool b => rw [dispatchCall_nonStr st m env (by rw [hmn]; intro s h; cases h)]
      | vNum nn => rw [dispatchCall_nonStr st m env (by rw [hmn]; intro s h; cases h)]
      | vList xs => rw [dispatchCall_nonStr st m env (by rw [hmn]; intro s h; cases h)]
      | vObj fs => rw [dispatchCall_nonStr st m env (by rw [hmn]; intro s h; cases h)]

/-- Witness for C10 (amended) at a concrete accepted envelope:
a one-way message for channel "a" on `chanSocket`. -/
theorem c10_dispatch_frame_witness :
    (onMessage chanSocket (mkEvent true "o" ⟨.vStr "7-x-y", "a", .vStr "hi", false⟩)
        sampleEnv).1.isTerminated = false
    ∧ (∀ s : String, (JSValue.vStr "7-x-y" : JSValue) ≠ .vStr s →
        (onMessage chanSocket (mkEvent true "o" ⟨.vStr "7-x-y", "a", .vStr "hi", false⟩)
          sampleEnv).1.answerHandlers s = chanSocket.answerHandlers s)
    ∧ (∀ s : String, (JSValue.vStr "7-x-y" : JSValue) = .vStr s →
        chanSocket.answerHandlers s = true →
        (onMessage chanSocket (mkEvent true "o" ⟨.vStr "7-x-y", "a", .vStr "hi", false⟩)
          sampleEnv).1 =
          { chanSocket with answerHandlers := removePending chanSocket.answerHandlers s }
        ∧ (onMessage chanSocket (mkEvent true "o" ⟨.vStr "7-x-y", "a", .vStr "hi", false⟩)
            sampleEnv).2 = [.settle s (.vStr "hi")])
    ∧ (∀ k : String, (JSValue.vStr "a" : JSValue) ≠ .vStr k →
        (onMessage chanSocket (mkEvent true "o" ⟨.vStr "7-x-y", "a", .vStr "hi", false⟩)
          sampleEnv).1.customEventListeners k = chanSocket.customEventListeners k)
    ∧ (∀ k l, isAnswerId chanSocket (.vStr "7-x-y") = false →
        (JSValue.vStr "a" : JSValue) = .vStr k →
        chanSocket.customEventListeners k = some l →
        (onMessage chanSocket (mkEvent true "o" ⟨.vStr "7-x-y", "a", .vStr "hi", false⟩)
          sampleEnv).1.customEventListeners k = (if l.once then none else some l))
    ∧ (isAnswerId chanSocket (.vStr "7-x-y") = false →
        (onMessage chanSocket (mkEvent true "o" ⟨.vStr "7-x-y", "a", .vStr "hi", false⟩)
          sampleEnv).1.answerHandlers = chanSocket.answerHandlers)
    ∧ (isAnswerId chanSocket (.vStr "7-x-y") = true →
        (onMessage chanSocket (mkEvent true "o" ⟨.vStr "7-x-y", "a", .vStr "hi", false⟩)
          sampleEnv).1.messageCounter = chanSocket.messageCounter)
    ∧ (isAnswerId chanSocket (.vStr "7-x-y") = false →
        (onMessage chanSocket (mkEvent true "o" ⟨.vStr "7-x-y", "a", .vStr "hi", false⟩)
          sampleEnv).1.messageCounter =
          (match (JSValue.vStr "a" : JSValue) with
           | .vStr nm =>
               if (chanSocket.customEventListeners nm).isSome
                   && jsTruthy (JSValue.vBool false) && !(jsTruthy (JSValue.vStr "7-x-y"))
               then chanSocket.messageCounter + 1 else chanSocket.messageCounter
           | _ => chanSocket.messageCounter)) :=
  c10_dispatch_frame chanSocket (mkEvent true "o" ⟨.vStr "7-x-y", "a", .vStr "hi", false⟩)
    sampleEnv ⟨.vStr "7-x-y", .vStr "a", .vStr "hi", .vBool false⟩
    (by rfl) (by rfl) (by rfl) (by rfl)

/-- C7: when the handshake timer fires on a still-pending session whose
container is attached, the promise is rejected with the timeout message
(which names the configured duration), the socket is terminated, and
the container is removed exactly once. -/
theorem c7_handshake_timeout (timeout : Nat) (s : InitState)
    (hatt : s.containerAttached = true) (hout : s.outcome = none) :
    (initOnTimeout timeout s).1.socket.isTerminated = true
    ∧ (initOnTimeout timeout s).1.outcome = some (.error (timeoutMessage timeout))
    ∧ (∃ pre suf : List Char,
        (timeoutMessage timeout).toList = pre ++ (Nat.repr timeout).toList ++ suf)
    ∧ (initOnTimeout timeout s).2 = [.removeContainer]
    ∧ (initOnTimeout timeout s).1.containerAttached = false := by
  refine ⟨?_, ?_, ?_, ?_, ?_⟩
  · simp [initOnTimeout, initCleanup, rejectInit, terminate, hatt, hout]
  · simp [initOnTimeout, initCleanup, rejectInit, hatt, hout]
  · refine ⟨("Plugin initialization failed with timeout! You can try to increase the timeout value in the plugin settings. Current value is ").toList,
      ("ms.").toList, ?_⟩
    simp [timeoutMessage, String.toList]
  · simp [initOnTimeout, initCleanup, hatt, hout]
  · simp [initOnTimeout, initCleanup, rejectInit, hatt, hout]

/-- Witness for C7: a 100 ms timeout on the pending sample session. -/
theorem c7_handshake_timeout_witness :
    (initOnTimeout 100 initSample).1.socket.isTerminated = true
    ∧ (initOnTimeout 100 initSample).1.outcome = some (.error (timeoutMessage 100))
    ∧ (∃ pre suf : List Char,
        (timeoutMessage 100).toList = pre ++ (Nat.repr 100).toList ++ suf)
    ∧ (initOnTimeout 100 initSample).2 = [.removeContainer]
    ∧ (initOnTimeout 100 initSample).1.containerAttached = false :=
  c7_handshake_timeout 100 initSample (by rfl) (by rfl)

/-- C8, counterexample: a non-list init reply that is not a string
(here the number 5) does NOT produce the explicit "did not return
method list" rejection — it rejects with the `forEach` TypeError; and
for a bare string reply (where the explicit error IS produced), the
cleanup path does not release the container.  Both contradict the claim
that every non-list reply yields the explicit error with the resource
released. -/
theorem c8_nonlist_reply_behaviour :
    (handleInitAnswer (.vNum 5) initSample).1.outcome =
        some (.error "answer.forEach is not a function")
    ∧ (some (Except.error "answer.forEach is not a function")
          : Option (Except String (List JSValue))) ≠
        some (.error "Plugin did not return method list")
    ∧ (handleInitAnswer (.vStr "Success") initSample).2 = []
    ∧ (handleInitAnswer (.vStr "Success") initSample).1.containerAttached = true := by
  refine ⟨rfl, ?_, rfl, rfl⟩
  intro h
  have := Option.some.inj h
  have h2 := congrArg (fun x => match x with | Except.error e => e | _ => "") this
  simp at h2

/-- C8 (amended): only a reply whose payload is a string triggers the
explicit "Plugin did not return method list" rejection, and that path
terminates the socket and clears the timer but does not remove the
container; any other non-list reply (number, boolean, object, null)
rejects with the TypeError thrown by `answer.forEach`, and that path's
cleanup terminates the socket and does remove the container. -/
theorem c8_nonlist_reply (s : InitState) (str : String) (v : JSValue)
    (hout : s.outcome = none) (hatt : s.containerAttached = true)
    (hvl : isMethodList v = false) (hvs : isStrValue v = false) :
    (handleInitAnswer (.vStr str) s).1.outcome =
        some (.error "Plugin did not return method list")
    ∧ (handleInitAnswer (.vStr str) s).1.socket.isTerminated = true
    ∧ (handleInitAnswer (.vStr str) s).1.timerActive = false
    ∧ (handleInitAnswer (.vStr str) s).2 = []
    ∧ (handleInitAnswer (.vStr str) s).1.containerAttached = true
    ∧ (handleInitAnswer v s).1.outcome = some (.error (forEachError v))
    ∧ (handleInitAnswer v s).1.socket.isTerminated = true
    ∧ (handleInitAnswer v s).2 = [.removeContainer] := by
  refine ⟨?_, ?_, ?_, ?_, ?_, ?_, ?_, ?_⟩
  · simp [handleInitAnswer, initCleanup, rejectInit, hout]
  · simp [handleInitAnswer, initCleanup, rejectInit, terminate, hout]
  · simp [handleInitAnswer, initCleanup, rejectInit, hout]
  · simp [handleInitAnswer, initCleanup]
  · simp [handleInitAnswer, initCleanup, rejectInit, hatt, hout]
  · cases v <;> simp_all [isMethodList, isStrValue] <;>
      simp [handleInitAnswer, initCleanup, rejectInit, forEachError, hout, hatt]
  · cases v <;> simp_all [isMethodList, isStrValue] <;>
      simp [handleInitAnswer, initCleanup, rejectInit, terminate, hout, hatt]
  · cases v <;> simp_all [isMethodList, isStrValue] <;>
      simp [handleInitAnswer, initCleanup, rejectInit, hout, hatt]

/-- Witness for C8 (amended): the string reply "Success" and the
numeric reply 5 on the pending sample session. -/
theorem c8_nonlist_reply_witness :
    (handleInitAnswer (.vStr "Success") initSample).1.outcome =
        some (.error "Plugin did not return method list")
    ∧ (handleInitAnswer (.vStr "Success") initSample).1.socket.isTerminated = true
    ∧ (handleInitAnswer (.vStr "Success") initSample).1.timerActive = false
    ∧ (handleInitAnswer (.vStr "Success") initSample).2 = []
    ∧ (handleInitAnswer (.vStr "Success") initSample).1.containerAttached = true
    ∧ (handleInitAnswer (.vNum 5) initSample).1.outcome =
        some (.error (forEachError (.vNum 5)))
    ∧ (handleInitAnswer (.vNum 5) initSample).1.socket.isTerminated = true
    ∧ (handleInitAnswer (.vNum 5) initSample).2 = [.removeContainer] :=
  c8_nonlist_reply initSample "Success" (.vNum 5) (by rfl) (by rfl) (by rfl) (by rfl)

/-- C9: `providePlugin` injects the mandatory "error" name into the
requested-callback set whenever the caller omitted it, so "error" is a
member of the effective set for every input; and whenever the parent
honours the requested set (the hook-name list it sends back contains
every requested name), the resolved hooks proxy map built by `onInit`
contains an "error" entry. -/
theorem c9_error_hook_mandatory (hooks parentHooks : List String) (st : SocketState)
    (hterm : st.isTerminated = false)
    (hsub : ∀ x ∈ effectiveHooks hooks, x ∈ parentHooks) :
    "error" ∈ effectiveHooks hooks
    ∧ "error" ∈ (buildParentCallbacks st parentHooks).2 := by
  have herr : "error" ∈ effectiveHooks hooks := by
    unfold effectiveHooks
    by_cases h : hooks.contains "error"
    · simp only [h, if_true]
      simpa using h
    · have h' : hooks.contains "error" = false := by
        cases hx : hooks.contains "error"
        · rfl
        · exact absurd hx h
      have hnm : "error" ∉ hooks := by simpa using h'
      simp [h', hnm]
  refine ⟨herr, ?_⟩
  have hmem : "error" ∈ parentHooks := hsub "error" herr
  have hgo := buildParentCallbacks_go parentHooks st [] hterm
  unfold buildParentCallbacks
  rw [hgo]
  simpa using hmem

/-- Witness for C9: the caller omits "error"; the parent honours the
requested set `["onSave", "error"]`. -/
theorem c9_error_hook_mandatory_witness :
    "error" ∈ effectiveHooks ["onSave"]
    ∧ "error" ∈ (buildParentCallbacks (mkSocket "o") ["onSave", "error"]).2 :=
  c9_error_hook_mandatory ["onSave"] ["onSave", "error"] (mkSocket "o")
    (by rfl) (by decide)
